import Mathlib

/-!
# User service (Gin + MongoDB): handlers of `main.go`

A shallow embedding of `src/main.go`: the four handlers `InsertUser`,
`GetUsers`, `DeleteUser`, `UpdateUser`, the route table built by `main`, and
the library calls they make (`strconv.ParseInt`, the collection handle of the
MongoDB driver, the router groups of gin).

A handler writes its response with `c.JSON(code, obj)`; a `Response` records
the two arguments of that call, and `Render` gives what gin sends for them: the
status, and the payload unless the status forbids a body. Error payloads keep the
Go error value whose `Error()` text is sent.

The handlers are stated over any `Collection`, so that every outcome of a store
call is covered. The collection `mongo` is a model of the document store behind
the handle, following the documented behaviour of the MongoDB driver; claims about
collection states are settled on it.
-/

namespace UserService

/-! ## strconv.ParseInt -/

/-- The two sentinel errors of package strconv. -/
inductive NumErrKind where
  | ErrSyntax
  | ErrRange
  deriving DecidableEq, Repr

/-- The text of `ErrSyntax.Error()` and `ErrRange.Error()`. -/
def NumErrKind.Error : NumErrKind → String
  | .ErrSyntax => "invalid syntax"
  | .ErrRange => "value out of range"

/-- A `*strconv.NumError`: the failing function, the input, the reason. -/
structure NumError where
  Func : String
  Num : String
  Err : NumErrKind
  deriving DecidableEq, Repr

def syntaxError (fn str : String) : NumError := ⟨fn, str, .ErrSyntax⟩

def rangeError (fn str : String) : NumError := ⟨fn, str, .ErrRange⟩

/-- The constant `maxUint64 = 1<<64 - 1`. -/
def maxUint64 : Nat := 2 ^ 64 - 1

/-- The helper `lower(c) = c | ('x' - 'X')` of strconv, on a byte value. -/
def lower (c : Nat) : Nat := c ||| 0x20

/-- The `switch` at the head of the digit loop of `ParseUint`, for a base other
than 0: the digit value `d` of the byte, or nothing in the `default` case. The case
`c == '_' && base0` cannot be taken for base 10. -/
def digitOf (c : Nat) : Option Nat :=
  if 48 ≤ c ∧ c ≤ 57 then some (c - 48)
  else if 97 ≤ lower c ∧ lower c ≤ 122 then some (lower c - 97 + 10)
  else none

/-- The digit loop of `strconv.ParseUint`: `for _, c := range []byte(s)`.
The accumulator `n` is a `uint64`, so the product and the sum wrap modulo `2^64`.
A Go string is a byte sequence; a character above 127 stands for bytes above 127,
all of which take the `default` case, as the character itself does here. -/
def ParseUintLoop (s0 : String) (base cutoff maxVal : Nat) :
    List Char → Nat → Nat × Option NumError
  | [], n => (n, none)
  | c :: cs, n =>
    match digitOf c.toNat with
    | none => (0, some (syntaxError "ParseUint" s0))
    | some d =>
      if d ≥ base then (0, some (syntaxError "ParseUint" s0))
      else if n ≥ cutoff then (maxVal, some (rangeError "ParseUint" s0))
      else
        let n := (n * base) % 2 ^ 64
        let n1 := (n + d) % 2 ^ 64
        if n1 < n ∨ n1 > maxVal then (maxVal, some (rangeError "ParseUint" s0))
        else ParseUintLoop s0 base cutoff maxVal cs n1

/-- The call `strconv.ParseUint(s, 10, 64)`: value and error, as Go returns them.
For base 10 the cutoff is `maxUint64/10 + 1`, for bit size 64 the largest value
is `1<<64 - 1`. -/
def ParseUint (s : List Char) : Nat × Option NumError :=
  if s = [] then (0, some (syntaxError "ParseUint" (String.mk s)))
  else
    let cutoff := maxUint64 / 10 + 1
    let maxVal := 2 ^ 64 - 1
    ParseUintLoop (String.mk s) 10 cutoff maxVal s 0

/-- The call `strconv.ParseInt(s, 10, 64)`: value and error, as Go returns them.
An error of `ParseUint` other than `ErrRange` is returned with `Func` and `Num`
rewritten; after a range error the value `un` is `maxVal` and the range check
below reports it. -/
def ParseInt (s : String) : Int × Option NumError :=
  if s.data = [] then (0, some (syntaxError "ParseInt" s))
  else
    let s0 := s
    -- pick off the leading sign
    let neg : Bool := s.data.head? = some '-'
    let rest := if s.data.head? = some '+' ∨ s.data.head? = some '-' then s.data.tail else s.data
    -- convert unsigned and check range
    let r := ParseUint rest
    let un := r.1
    match r.2 with
    | some ⟨_, _, .ErrSyntax⟩ => (0, some ⟨"ParseInt", s0, .ErrSyntax⟩)
    | _ =>
      let cutoff : Nat := 2 ^ 63
      if neg = false ∧ un ≥ cutoff then ((cutoff : Int) - 1, some (rangeError "ParseInt" s0))
      else if neg = true ∧ un > cutoff then (-(cutoff : Int), some (rangeError "ParseInt" s0))
      else (if neg then -(un : Int) else (un : Int), none)

/-! ## What a decimal integer is (the words of the specification) -/

/-- An ASCII decimal digit. -/
def isDigit (c : Char) : Bool := 48 ≤ c.toNat && c.toNat ≤ 57

/-- The number a digit string denotes, most significant digit first. -/
def decimalValue (cs : List Char) : Nat :=
  cs.foldl (fun n c => 10 * n + (c.toNat - 48)) 0

/-- A base-10 signed integer: an optional sign, then one digit or more. -/
def signedDecimal (s : String) : Option Int :=
  match s.data with
  | [] => none
  | c :: cs =>
    if c = '-' then
      if cs ≠ [] ∧ cs.all isDigit then some (-(decimalValue cs : Int)) else none
    else if c = '+' then
      if cs ≠ [] ∧ cs.all isDigit then some (decimalValue cs : Int) else none
    else if (c :: cs).all isDigit then some (decimalValue (c :: cs) : Int) else none

/-- The value fits a signed 64-bit integer. -/
def fitsInt64 (v : Int) : Prop := -(2 ^ 63 : Int) ≤ v ∧ v < (2 ^ 63 : Int)

instance (v : Int) : Decidable (fitsInt64 v) := by unfold fitsInt64; infer_instance

/-- The path value is a base-10 signed integer that fits in 64 bits. -/
def isInt64Decimal (s : String) : Prop := ∃ v, signedDecimal s = some v ∧ fitsInt64 v

/-! ## Values: errors, the User record, BSON, responses -/

deriving instance DecidableEq for Except

/-- A Go `error` value as the handlers see it: a `*strconv.NumError`, the sentinel
`mongo.ErrNoDocuments` (compared by identity in the handlers), or any other error
with its message. -/
inductive GoError where
  | numError (e : NumError)
  | ErrNoDocuments
  | other (msg : String)
  deriving DecidableEq, Repr

/-- The method `Error()` of an error value; `quote` stands for `strconv.Quote`. -/
def GoError.Error (quote : String → String) : GoError → String
  | .numError e => "strconv." ++ e.Func ++ ": parsing " ++ quote e.Num ++ ": " ++ e.Err.Error
  | .ErrNoDocuments => "mongo: no documents in result"
  | .other msg => msg

/-- The struct `User`; `Age` is a Go `int`, `Registered` a `primitive.DateTime`
(milliseconds since the epoch, an `int64`). -/
structure User where
  Age : Int
  Name : String
  Surname : String
  Registered : Int
  deriving DecidableEq, Repr

/-- The BSON values that occur in this service. -/
inductive BsonValue where
  | int32 (v : Int)
  | int64 (v : Int)
  | string (s : String)
  | dateTime (ms : Int)
  | objectID (n : Nat)
  deriving DecidableEq, Repr

/-- A `bson.D` or `bson.M` of plain values: keys with their values. -/
abbrev BsonD := List (String × BsonValue)

/-- A `bson.D` whose values are `User` structs, as in `bson.D{{Key: "$set", Value: user}}`. -/
abbrev UpdateD := List (String × User)

/-- The integer encoder of the bson package writes a Go `int` as int32 when it
fits in 32 bits and as int64 otherwise. -/
def encodeInt (i : Int) : BsonValue :=
  if -(2 ^ 31 : Int) ≤ i ∧ i < (2 ^ 31 : Int) then .int32 i else .int64 i

/-- The call `bson.Marshal(user)`: the struct tags name the four fields; nothing
in a `User` can fail to encode. -/
def bsonMarshal (user : User) : Except GoError BsonD :=
  .ok [("age", encodeInt user.Age), ("name", .string user.Name),
       ("surname", .string user.Surname), ("registered", .dateTime user.Registered)]

/-- The call `bson.Unmarshal(byteUser, &bUser)` into a `bson.M`. -/
def bsonUnmarshal (byteUser : BsonD) : Except GoError BsonD := .ok byteUser

/-- The `*mongo.InsertOneResult`. -/
structure InsertOneResult where
  InsertedID : Nat
  deriving DecidableEq, Repr

/-- The second argument of `c.JSON`: `err.Error()` as a JSON string,
`gin.H{"ERROR": err.Error()}`, the insert result, a `[]User` that is not nil
(written as a JSON array), a nil `[]User` (written as `null`), or a `User`. -/
inductive Payload where
  | errorText (err : GoError)
  | H_ERROR (err : GoError)
  | insertResult (r : InsertOneResult)
  | users (us : List User)
  | nilUsers
  | user (u : User)
  deriving DecidableEq, Repr

/-- The slice `users` as handed to `c.JSON`, after `All` appended the decoded
documents to `var users []User`: the slice is still nil when there were none. -/
def usersPayload (decoded : List User) : Payload :=
  if decoded = [] then .nilUsers else .users decoded

/-- One call `c.JSON(code, obj)`. -/
structure Response where
  code : Nat
  obj : Payload
  deriving DecidableEq, Repr

/-- What the client receives: the status, and the body if one is sent. -/
structure WireResponse where
  status : Nat
  body : Option Payload
  deriving DecidableEq, Repr

/-- The helper `bodyAllowedForStatus` of gin: no body for 1xx, 204 and 304. -/
def bodyAllowedForStatus (status : Nat) : Bool :=
  if 100 ≤ status ∧ status ≤ 199 then false
  else if status = 204 then false
  else if status = 304 then false
  else true

/-- The method `Render` of the gin context, behind `c.JSON`: the status is set,
and when the status allows no body only the header is written. -/
def Render (r : Response) : WireResponse :=
  if bodyAllowedForStatus r.code = false then ⟨r.code, none⟩
  else ⟨r.code, some r.obj⟩

def StatusOK : Nat := 200
def StatusNotModified : Nat := 304
def StatusBadRequest : Nat := 400
def StatusInternalServerError : Nat := 500

/-! ## The collection handle -/

/-- The `options.FindOptions` fields the service sets. -/
structure FindOptions where
  Limit : Option Int := none
  deriving DecidableEq, Repr

inductive ReturnDocument where
  | Before
  | After
  deriving DecidableEq, Repr

/-- The `options.FindOneAndUpdateOptions` fields that decide the result. -/
structure FindOneAndUpdateOptions where
  ReturnDocument : Option ReturnDocument := none
  Upsert : Option Bool := none
  deriving DecidableEq, Repr

/-- A `*mongo.Cursor` as `GetUsers` uses it: the outcome of `All(ctx, &users)`,
an error or the users it decodes and appends. -/
structure Cursor where
  All : Except GoError (List User)
  deriving DecidableEq, Repr

/-- A `*mongo.SingleResult` as the handlers use it: the outcome of `Decode` into a `User`. -/
structure SingleResult where
  Decode : Except GoError User
  deriving DecidableEq, Repr

/-- The operations of `*mongo.Collection` the handlers call, over a store state `σ`.
Each takes the state and returns its outcome with the state it leaves. -/
structure Collection (σ : Type) where
  InsertOne : User → σ → Except GoError InsertOneResult × σ
  Find : BsonD → FindOptions → σ → Except GoError Cursor × σ
  FindOneAndDelete : BsonD → σ → SingleResult × σ
  FindOneAndUpdate : BsonD → UpdateD → FindOneAndUpdateOptions → σ → SingleResult × σ

/-- A call made on the store, in the order made. -/
inductive StoreCall where
  | InsertOne (document : User)
  | Find (filter : BsonD) (opts : FindOptions)
  | CursorAll
  | CursorClose
  | FindOneAndDelete (filter : BsonD)
  | FindOneAndUpdate (filter : BsonD) (update : UpdateD) (opts : FindOneAndUpdateOptions)
  deriving DecidableEq, Repr

/-- What a handler leaves behind: the responses it wrote, the store calls it
made, and the store state. -/
structure Ctx (σ : Type) where
  written : List Response
  calls : List StoreCall
  db : σ

/-! ## The handlers -/

/-- The handler `InsertUser`; `body` is the outcome of `c.ShouldBindJSON(&user)`. -/
def InsertUser {σ : Type} (collection : Collection σ) (body : Except GoError User) (db : σ) :
    Ctx σ :=
  match body with
  | .error err => ⟨[⟨StatusBadRequest, .H_ERROR err⟩], [], db⟩
  | .ok user =>
    match collection.InsertOne user db with
    | (.error err, db1) => ⟨[⟨StatusInternalServerError, .H_ERROR err⟩], [.InsertOne user], db1⟩
    | (.ok result, db1) => ⟨[⟨StatusOK, .insertResult result⟩], [.InsertOne user], db1⟩

/-- The handler `GetUsers`; `sizeParam` is `c.Param("size")`. The deferred
`searchResult.Close(ctx)` runs when the handler returns after a successful `Find`.
The slice `users` is declared nil, and `All` appends to it what it decodes. -/
def GetUsers {σ : Type} (collection : Collection σ) (sizeParam : String) (db : σ) : Ctx σ :=
  let r := ParseInt sizeParam
  let size := r.1
  match r.2 with
  | some err => ⟨[⟨StatusBadRequest, .errorText (.numError err)⟩], [], db⟩
  | none =>
    let findOptions : FindOptions := { Limit := some size }
    match collection.Find [] findOptions db with
    | (.error err, db1) =>
      ⟨[⟨StatusInternalServerError, .H_ERROR err⟩], [.Find [] findOptions], db1⟩
    | (.ok searchResult, db1) =>
      match searchResult.All with
      | .error err =>
        ⟨[⟨StatusInternalServerError, .H_ERROR err⟩],
          [.Find [] findOptions, .CursorAll, .CursorClose], db1⟩
      | .ok decoded =>
        ⟨[⟨StatusOK, usersPayload decoded⟩],
          [.Find [] findOptions, .CursorAll, .CursorClose], db1⟩

/-- The handler `DeleteUser`; `userUid` is `c.Param("uid")`. -/
def DeleteUser {σ : Type} (collection : Collection σ) (userUid : String) (db : σ) : Ctx σ :=
  let filter : BsonD := [("_uid", .string userUid)]
  let r := collection.FindOneAndDelete filter db
  match r.1.Decode with
  | .error err =>
    if err = .ErrNoDocuments then
      ⟨[⟨StatusNotModified, .H_ERROR err⟩], [.FindOneAndDelete filter], r.2⟩
    else ⟨[⟨StatusInternalServerError, .H_ERROR err⟩], [.FindOneAndDelete filter], r.2⟩
  | .ok deletedUser => ⟨[⟨StatusOK, .user deletedUser⟩], [.FindOneAndDelete filter], r.2⟩

/-- The handler `UpdateUser`; `userUid` is `c.Param("uid")`, `body` the outcome of
`c.ShouldBindJSON(&user)`. The map `bUser` is built and not used again. -/
def UpdateUser {σ : Type} (collection : Collection σ) (userUid : String)
    (body : Except GoError User) (db : σ) : Ctx σ :=
  match body with
  | .error err => ⟨[⟨StatusBadRequest, .H_ERROR err⟩], [], db⟩
  | .ok user =>
    match bsonMarshal user with
    | .error err => ⟨[⟨StatusInternalServerError, .H_ERROR err⟩], [], db⟩
    | .ok byteUser =>
      match bsonUnmarshal byteUser with
      | .error err => ⟨[⟨StatusInternalServerError, .H_ERROR err⟩], [], db⟩
      | .ok _ =>
        let opts : FindOneAndUpdateOptions := { ReturnDocument := some .After }
        let filter : BsonD := [("_uid", .string userUid)]
        let update : UpdateD := [("$set", user)]
        let r := collection.FindOneAndUpdate filter update opts db
        match r.1.Decode with
        | .error err =>
          if err = .ErrNoDocuments then
            ⟨[⟨StatusNotModified, .H_ERROR err⟩], [.FindOneAndUpdate filter update opts], r.2⟩
          else
            ⟨[⟨StatusInternalServerError, .H_ERROR err⟩],
              [.FindOneAndUpdate filter update opts], r.2⟩
        | .ok updatedUser =>
          ⟨[⟨StatusOK, .user updatedUser⟩], [.FindOneAndUpdate filter update opts], r.2⟩

/-! ## Requests in sequence -/

/-- A request to one of the four routes, with what gin hands the handler: the
path value, and for a body the outcome of binding it to a `User`. -/
inductive Request where
  | List (size : String)
  | Insert (body : Except GoError User)
  | Delete (uid : String)
  | Update (uid : String) (body : Except GoError User)
  deriving DecidableEq, Repr

/-- The handler the router dispatches a request to. -/
def serve {σ : Type} (collection : Collection σ) (req : Request) (db : σ) : Ctx σ :=
  match req with
  | .List size => GetUsers collection size db
  | .Insert body => InsertUser collection body db
  | .Delete uid => DeleteUser collection uid db
  | .Update uid body => UpdateUser collection uid body db

/-- Requests served one after the other on the shared collection handle: each
request with the responses written for it, and the final store state. -/
def run {σ : Type} (collection : Collection σ) :
    List Request → σ → List (Request × List Response) × σ
  | [], db => ([], db)
  | req :: reqs, db =>
    let c := serve collection req db
    let rest := run collection reqs c.db
    ((req, c.written) :: rest.1, rest.2)

/-! ## The document store

The collection `loginusers` as a list of documents in natural order. A stored
document has the persisted shape of the service: the identifier `_id` the driver
assigns, the four `User` fields, and possibly a field `_uid`, which only a write
from outside the service can set. The store below always answers; a store that
fails is covered by the handlers being stated over any `Collection`. -/

/-- A stored document. -/
structure Document where
  _id : Nat
  _uid : Option BsonValue
  age : Int
  name : String
  surname : String
  registered : Int
  deriving DecidableEq, Repr

/-- The collection: its documents in natural order, and the next identifier the
driver will generate. -/
structure Store where
  docs : List Document
  nextID : Nat
  deriving DecidableEq, Repr

/-- The value of a field of a document, if the document has the field. -/
def Document.field (d : Document) (key : String) : Option BsonValue :=
  if key = "_id" then some (.objectID d._id)
  else if key = "_uid" then d._uid
  else if key = "age" then some (encodeInt d.age)
  else if key = "name" then some (.string d.name)
  else if key = "surname" then some (.string d.surname)
  else if key = "registered" then some (.dateTime d.registered)
  else none

/-- An equality filter matches a document that has every listed field with the
listed value; the empty filter matches every document. -/
def Document.matches (filter : BsonD) (d : Document) : Bool :=
  filter.all (fun kv => d.field kv.1 = some kv.2)

/-- Decoding a document into a `User`: the tagged fields are read, `_id` and
`_uid` are ignored. -/
def Document.decode (d : Document) : User := ⟨d.age, d.name, d.surname, d.registered⟩

/-- A value brought into the range of an `int64`, as Go arithmetic does. -/
def wrapInt64 (x : Int) : Int := (x + 2 ^ 63) % 2 ^ 64 - 2 ^ 63

/-- The number of documents in the first batch of a find when no batch size is set. -/
def firstBatchSize : Nat := 101

/-- The server refuses a find command whose limit is negative. The text of its
message depends on the server; this one stands for it. -/
def negativeLimitError : GoError := .other "limit must be non-negative"

/-- The documents a find command returns to `All`: limit 0 is no limit, a positive
limit `n` gives at most `n`; with `singleBatch` the cursor ends after the first
batch. -/
def serverFind (limit : Int) (singleBatch : Bool) (docs : List Document) : List Document :=
  let cut := if limit = 0 then docs else docs.take limit.toNat
  if singleBatch then cut.take firstBatchSize else cut

/-- The `$set` of a `User`: the four tagged fields are written. -/
def setUser (d : Document) (u : User) : Document :=
  { d with age := u.Age, name := u.Name, surname := u.Surname, registered := u.Registered }

/-- An update document applied to a stored document, operator by operator. -/
def applyUpdate (update : UpdateD) (d : Document) : Document :=
  update.foldl (fun d op => setUser d op.2) d

/-- The first document satisfying `p` replaced by `d1`. -/
def replaceFirst (p : Document → Bool) (d1 : Document) : List Document → List Document
  | [] => []
  | d :: ds => if p d then d1 :: ds else d :: replaceFirst p d1 ds

/-- The store's insertOne: the driver adds a generated `_id` to the encoded `User`
and the document is appended. -/
def mongoInsertOne (user : User) (db : Store) : Except GoError InsertOneResult × Store :=
  let doc : Document :=
    ⟨db.nextID, none, user.Age, user.Name, user.Surname, user.Registered⟩
  (.ok ⟨db.nextID⟩, ⟨db.docs ++ [doc], db.nextID + 1⟩)

/-- The store's find. Without a limit every matching document is returned, in
natural order. The driver sends a negative limit negated (`limit = -1 * limit` on
an `int64`, so `-2^63` stays negative) and asks for a single batch; the server
refuses a negative limit. The cursor decodes the documents into `User` values. -/
def mongoFind (filter : BsonD) (opts : FindOptions) (db : Store) :
    Except GoError Cursor × Store :=
  let matching := db.docs.filter (Document.matches filter)
  match opts.Limit with
  | none => (.ok ⟨.ok (matching.map Document.decode)⟩, db)
  | some l =>
    let limit := if l < 0 then wrapInt64 (-1 * l) else l
    let singleBatch : Bool := decide (l < 0)
    if limit < 0 then (.error negativeLimitError, db)
    else (.ok ⟨.ok ((serverFind limit singleBatch matching).map Document.decode)⟩, db)

/-- The store's findOneAndDelete: the first matching document is removed and
returned; without a match the result decodes to `mongo.ErrNoDocuments`. -/
def mongoFindOneAndDelete (filter : BsonD) (db : Store) : SingleResult × Store :=
  match db.docs.find? (Document.matches filter) with
  | none => (⟨.error .ErrNoDocuments⟩, db)
  | some d => (⟨.ok d.decode⟩, { db with docs := db.docs.eraseP (Document.matches filter) })

/-- The store's findOneAndUpdate. Only the operator `$set` is known to this model;
another operator is refused. Without a match the collection is left as it is unless
the options ask for an upsert, in which case a document is created from the
filter's `_uid` and the update. -/
def mongoFindOneAndUpdate (filter : BsonD) (update : UpdateD) (opts : FindOneAndUpdateOptions)
    (db : Store) : SingleResult × Store :=
  if update.all (fun op => op.1 = "$set") = false then
    (⟨.error (.other "Unknown modifier")⟩, db)
  else
    match db.docs.find? (Document.matches filter) with
    | some d =>
      let d1 := applyUpdate update d
      let db1 : Store := { db with docs := replaceFirst (Document.matches filter) d1 db.docs }
      (⟨.ok (if opts.ReturnDocument = some .After then d1.decode else d.decode)⟩, db1)
    | none =>
      if opts.Upsert = some true then
        let d0 : Document := ⟨db.nextID, filter.lookup "_uid", 0, "", "", 0⟩
        let d1 := applyUpdate update d0
        let db1 : Store := ⟨db.docs ++ [d1], db.nextID + 1⟩
        (⟨if opts.ReturnDocument = some .After then .ok d1.decode else .error .ErrNoDocuments⟩,
          db1)
      else (⟨.error .ErrNoDocuments⟩, db)

/-- The collection handle of the service, bound to the document store. -/
def mongo : Collection Store :=
  { InsertOne := mongoInsertOne
    Find := mongoFind
    FindOneAndDelete := mongoFindOneAndDelete
    FindOneAndUpdate := mongoFindOneAndUpdate }

/-- No document of the collection has a field `_uid`. -/
def noUid (db : Store) : Prop := ∀ d ∈ db.docs, d._uid = none

instance (db : Store) : Decidable (noUid db) := by unfold noUid; infer_instance

/-! ## Routing: the router groups of gin and `main` -/

/-- The `cors.Config` of the middleware. `MaxAge` is in seconds. -/
structure CorsConfig where
  Origins : String
  Methods : String
  RequestHeaders : String
  ExposedHeaders : String
  MaxAge : Nat
  Credentials : Bool
  ValidateHeaders : Bool
  deriving DecidableEq, Repr

/-- The handler functions that occur in chains: the two middlewares of
`gin.Default()`, the CORS middleware with its configuration, and the four
handlers of the service. -/
inductive HandlerFunc where
  | Logger
  | Recovery
  | Cors (config : CorsConfig)
  | GetUsers
  | InsertUser
  | DeleteUser
  | UpdateUser
  deriving DecidableEq, Repr

/-- A `gin.RouterGroup`: its own handler chain and base path. -/
structure RouterGroup where
  Handlers : List HandlerFunc
  basePath : String
  deriving DecidableEq, Repr

/-- A registered route with the chain stored for it. -/
structure RouteInfo where
  Method : String
  Path : String
  Handlers : List HandlerFunc
  deriving DecidableEq, Repr

/-- A `gin.Engine`: the root group, the registered routes, and the chain run
when no route matches. -/
structure Engine where
  RouterGroup : RouterGroup
  trees : List RouteInfo
  allNoRoute : List HandlerFunc
  deriving DecidableEq, Repr

/-- The helper `joinPaths` for a relative path that starts with a slash and has
no trailing slash, which is every path `main` uses. -/
def joinPaths (absolutePath relativePath : String) : String :=
  if relativePath = "" then absolutePath
  else if absolutePath = "/" then relativePath
  else absolutePath ++ relativePath

/-- The method `combineHandlers`: a fresh chain, the group's handlers copied,
then the given ones. -/
def RouterGroup.combineHandlers (group : RouterGroup) (handlers : List HandlerFunc) :
    List HandlerFunc :=
  group.Handlers ++ handlers

/-- The method `Group`: the new group gets a copy of the chain the parent has at
this moment. -/
def RouterGroup.Group (group : RouterGroup) (relativePath : String) : RouterGroup :=
  { Handlers := group.combineHandlers [], basePath := joinPaths group.basePath relativePath }

/-- The method `engine.Use`: the middleware is appended to the root group's own
chain, and the no-route chain is rebuilt from it. -/
def Engine.Use (engine : Engine) (middleware : List HandlerFunc) : Engine :=
  let root : UserService.RouterGroup :=
    { engine.RouterGroup with Handlers := engine.RouterGroup.Handlers ++ middleware }
  { engine with RouterGroup := root, allNoRoute := root.combineHandlers [] }

/-- The method `group.handle`, behind `GET`, `POST`, `DELETE` and `PUT`: the route
is added to the engine with the group's chain followed by the handler. -/
def Engine.handle (engine : Engine) (group : UserService.RouterGroup) (httpMethod relativePath : String)
    (handler : HandlerFunc) : Engine :=
  { engine with
    trees := engine.trees ++
      [⟨httpMethod, joinPaths group.basePath relativePath, group.combineHandlers [handler]⟩] }

/-- The function `gin.New()`. -/
def ginNew : Engine := { RouterGroup := ⟨[], "/"⟩, trees := [], allNoRoute := [] }

/-- The function `gin.Default()`: a new engine using Logger and Recovery. -/
def ginDefault : Engine := ginNew.Use [.Logger, .Recovery]

/-- The configuration `main` passes to `cors.Middleware`. -/
def corsConfig : CorsConfig :=
  { Origins := "*"
    Methods := "GET, PUT, POST, DELETE"
    RequestHeaders := "Origin, Authorization, Content-Type"
    ExposedHeaders := ""
    MaxAge := 50
    Credentials := false
    ValidateHeaders := false }

/-- The routing part of `main`, statement by statement; the result is the engine
on which `router.Run()` is called. -/
def main : Engine :=
  let router := ginDefault
  let api := router.RouterGroup.Group "/api"
  let users := api.Group "/users"
  let router := router.Use [.Cors corsConfig]
  let router := router.handle users "GET" "/:size" .GetUsers
  let router := router.handle users "POST" "/add" .InsertUser
  let router := router.handle users "DELETE" "/:uid/delete" .DeleteUser
  let router := router.handle users "PUT" "/:uid/update" .UpdateUser
  router

/-! ## Sample data -/

/-- The user of the scenarios of the specification. -/
def ann : User := ⟨30, "Ann", "Lee", 0⟩

/-- A collection of five documents as the service inserts them. -/
def fiveDocs : Store :=
  ⟨[⟨0, none, 21, "Ada", "Ay", 0⟩, ⟨1, none, 22, "Bo", "Bee", 0⟩, ⟨2, none, 23, "Cy", "Cox", 0⟩,
    ⟨3, none, 24, "Di", "Day", 0⟩, ⟨4, none, 25, "Ed", "Eck", 0⟩], 5⟩

/-- A collection of one document as the service inserts it. -/
def oneDoc : Store := ⟨[⟨0, none, 30, "Ann", "Lee", 0⟩], 1⟩

/-- A collection whose second document was given `_uid` "xyz" from outside. -/
def withUid : Store :=
  ⟨[⟨0, none, 21, "Ada", "Ay", 0⟩, ⟨1, some (.string "xyz"), 30, "Ann", "Lee", 0⟩], 2⟩

/-! ## ParseInt against the specification -/

theorem foldl_dec_ge (cs : List Char) (n : Nat) :
    n ≤ cs.foldl (fun n c => 10 * n + (c.toNat - 48)) n := by
  induction cs generalizing n with
  | nil => simp
  | cons c cs ih =>
    simp only [List.foldl_cons]
    exact le_trans (by omega) (ih _)

theorem cutoff_eq : maxUint64 / 10 + 1 = 1844674407370955162 := by decide

/-- The digit switch on a decimal digit. -/
theorem digitOf_digit (c : Nat) (h : 48 ≤ c ∧ c ≤ 57) : digitOf c = some (c - 48) := by
  simp only [digitOf, h, and_self, if_true]

/-- The digit switch on any other byte: nothing, or a letter value, which base 10
refuses. -/
theorem digitOf_not_digit (c : Nat) (h : ¬ (48 ≤ c ∧ c ≤ 57)) :
    digitOf c = none ∨ ∃ d, digitOf c = some d ∧ 10 ≤ d := by
  simp only [digitOf, h, if_false]
  split_ifs
  · exact Or.inr ⟨_, rfl, by omega⟩
  · exact Or.inl rfl

/-- The digit loop, case by case: it ends without error exactly on digit strings
whose value stays below `2^64`, and then returns that value. -/
theorem ParseUintLoop_cases (s0 : String) (cs : List Char) (n : Nat) (hn : n < 2 ^ 64) :
    (ParseUintLoop s0 10 1844674407370955162 (2 ^ 64 - 1) cs n =
        (cs.foldl (fun n c => 10 * n + (c.toNat - 48)) n, none) ∧
      cs.all isDigit = true ∧ cs.foldl (fun n c => 10 * n + (c.toNat - 48)) n < 2 ^ 64) ∨
    (ParseUintLoop s0 10 1844674407370955162 (2 ^ 64 - 1) cs n =
        (0, some (syntaxError "ParseUint" s0)) ∧ cs.all isDigit = false) ∨
    (ParseUintLoop s0 10 1844674407370955162 (2 ^ 64 - 1) cs n =
        (2 ^ 64 - 1, some (rangeError "ParseUint" s0)) ∧
      (cs.all isDigit = true → 2 ^ 64 ≤ cs.foldl (fun n c => 10 * n + (c.toNat - 48)) n)) := by
  induction cs generalizing n with
  | nil => left; simp [ParseUintLoop]; omega
  | cons c cs ih =>
    simp only [ParseUintLoop, List.foldl_cons, List.all_cons, isDigit]
    by_cases hd : 48 ≤ c.toNat ∧ c.toNat ≤ 57
    · have hd1 : ¬ (c.toNat - 48 ≥ 10) := by omega
      rw [digitOf_digit c.toNat hd]
      simp only [hd1, if_false]
      by_cases hc : n ≥ 1844674407370955162
      · right; right
        simp only [hc, if_true, true_and]
        intro _
        exact le_trans (by omega) (foldl_dec_ge cs _)
      · simp only [hc, if_false]
        have h1 : n * 10 % 2 ^ 64 = n * 10 := Nat.mod_eq_of_lt (by omega)
        rw [h1]
        by_cases ho : n * 10 + (c.toNat - 48) < 2 ^ 64
        · have h2 : (n * 10 + (c.toNat - 48)) % 2 ^ 64 = n * 10 + (c.toNat - 48) :=
            Nat.mod_eq_of_lt ho
          rw [h2]
          have h3 : ¬ (n * 10 + (c.toNat - 48) < n * 10 ∨
              n * 10 + (c.toNat - 48) > 2 ^ 64 - 1) := by
            omega
          simp only [h3, if_false]
          have h4 : 10 * n + (c.toNat - 48) = n * 10 + (c.toNat - 48) := by omega
          rw [h4]
          have := ih (n * 10 + (c.toNat - 48)) ho
          simpa [isDigit, hd] using this
        · right; right
          have h2 : (n * 10 + (c.toNat - 48)) % 2 ^ 64 = n * 10 + (c.toNat - 48) - 2 ^ 64 := by
            rw [Nat.mod_eq_sub_mod (by omega)]
            exact Nat.mod_eq_of_lt (by omega)
          rw [h2]
          have h3 : (n * 10 + (c.toNat - 48) - 2 ^ 64 < n * 10 ∨
              n * 10 + (c.toNat - 48) - 2 ^ 64 > 2 ^ 64 - 1) := by
            left; omega
          simp only [h3, if_true, true_and]
          intro _
          exact le_trans (by omega) (foldl_dec_ge cs _)
    · right; left
      have hd3 : (decide (48 ≤ c.toNat) && decide (c.toNat ≤ 57)) = false := by
        simpa using hd
      simp only [hd3, Bool.false_and, and_true]
      rcases digitOf_not_digit c.toNat hd with h | ⟨d, h, hge⟩
      · rw [h]
      · rw [h]
        simp only [ge_iff_le, hge, if_true]

/-- The call `ParseUint(s, 10, 64)`, case by case. -/
theorem ParseUint_cases (cs : List Char) :
    (ParseUint cs = (decimalValue cs, none) ∧ cs ≠ [] ∧ cs.all isDigit = true ∧
        decimalValue cs < 2 ^ 64) ∨
    (ParseUint cs = (0, some (syntaxError "ParseUint" (String.mk cs))) ∧
        (cs = [] ∨ cs.all isDigit = false)) ∨
    (ParseUint cs = (2 ^ 64 - 1, some (rangeError "ParseUint" (String.mk cs))) ∧
        cs ≠ [] ∧ (cs.all isDigit = true → 2 ^ 64 ≤ decimalValue cs)) := by
  by_cases he : cs = []
  · right; left; simp [ParseUint, he]
  · have h := ParseUintLoop_cases (String.mk cs) cs 0 (by norm_num)
    simp only [ParseUint, he, if_false, cutoff_eq, decimalValue]
    rcases h with h | h | h
    · left; exact ⟨h.1, he, h.2.1, h.2.2⟩
    · right; left; exact ⟨h.1, Or.inr h.2⟩
    · right; right; exact ⟨h.1, he, h.2⟩

/-- The tail of `ParseInt` after `ParseUint` returned: sign and range check. -/
theorem ParseInt_unfold (c : Char) (t : List Char) :
    ParseInt (String.mk (c :: t)) =
      (let neg : Bool := decide (c = '-')
       let rest := if c = '+' ∨ c = '-' then t else c :: t
       let r := ParseUint rest
       match r.2 with
       | some ⟨_, _, .ErrSyntax⟩ => (0, some ⟨"ParseInt", String.mk (c :: t), .ErrSyntax⟩)
       | _ =>
         if neg = false ∧ r.1 ≥ 2 ^ 63 then
           (((2 ^ 63 : Nat) : Int) - 1, some (rangeError "ParseInt" (String.mk (c :: t))))
         else if neg = true ∧ r.1 > 2 ^ 63 then
           (-((2 ^ 63 : Nat) : Int), some (rangeError "ParseInt" (String.mk (c :: t))))
         else (if neg then -(r.1 : Int) else (r.1 : Int), none)) := by
  simp [ParseInt]

/-- The unsigned branch of `ParseInt` (no sign, or a leading plus). -/
theorem ParseInt_nonneg_core (rest : List Char) (s0 : String) (v : Int) :
    (match (ParseUint rest).2 with
      | some ⟨_, _, .ErrSyntax⟩ => ((0 : Int), some (NumError.mk "ParseInt" s0 .ErrSyntax))
      | _ =>
        if decide False = false ∧ (ParseUint rest).1 ≥ 2 ^ 63 then
          (((2 ^ 63 : Nat) : Int) - 1, some (rangeError "ParseInt" s0))
        else
          if decide False = true ∧ (ParseUint rest).1 > 2 ^ 63 then
            (-((2 ^ 63 : Nat) : Int), some (rangeError "ParseInt" s0))
          else (if decide False = true then -((ParseUint rest).1 : Int) else ((ParseUint rest).1 : Int), none)) =
      (v, none) ↔
    (rest ≠ [] ∧ rest.all isDigit = true) ∧ (decimalValue rest : Int) = v ∧
      -2 ^ 63 ≤ v ∧ v < 2 ^ 63 := by
  rcases ParseUint_cases rest with h | h | h
  · obtain ⟨h1, h2, h3, h4⟩ := h
    simp only [h1, h2, h3, ne_eq, not_false_eq_true, and_self, true_and]
    simp only [decide_False, Bool.false_eq_true, false_and, if_false, true_and]
    by_cases hr : decimalValue rest ≥ 2 ^ 63
    · simp only [hr, if_true, rangeError, Prod.mk.injEq, Option.some.injEq]
      constructor
      · intro h; exact absurd h.2 (by simp)
      · rintro ⟨h5, h6, h7⟩; subst h5; omega
    · simp only [hr, if_false, Prod.mk.injEq, Option.some.injEq, and_true]
      constructor
      · intro h; subst h; exact ⟨rfl, by omega, by omega⟩
      · rintro ⟨h5, -⟩; exact h5
  · obtain ⟨h1, h2⟩ := h
    have : ¬ (rest ≠ [] ∧ rest.all isDigit = true) := by
      rcases h2 with h2 | h2
      · simp [h2]
      · simp [h2]
    simp only [h1, syntaxError, this, false_and, iff_false]
    simp
  · obtain ⟨h1, h2, h3⟩ := h
    simp only [h1, rangeError]
    by_cases hd : rest.all isDigit = true
    · have := h3 hd
      simp only [hd, h2, ne_eq, not_false_eq_true, and_self, true_and]
      norm_num
      constructor
      · rintro ⟨-, h⟩; exact absurd h (by simp)
      · rintro ⟨h5, h6, h7⟩; subst h5; omega
    · simp [hd]

/-- ParseInt succeeds with value `v` exactly when the input is a base-10 signed
integer denoting `v` and `v` fits in 64 bits. -/
theorem ParseInt_ok_iff (s : String) (v : Int) :
    ParseInt s = (v, none) ↔ signedDecimal s = some v ∧ fitsInt64 v := by
  obtain ⟨cs⟩ := s
  cases cs with
  | nil => simp [ParseInt, signedDecimal, syntaxError]
  | cons c t =>
    rw [ParseInt_unfold]
    simp only [signedDecimal, fitsInt64]
    by_cases hm : c = '-'
    · subst hm
      simp only [or_true, if_true, decide_True]
      rcases ParseUint_cases t with h | h | h
      · obtain ⟨h1, h2, h3, h4⟩ := h
        simp only [h1, h2, h3, ne_eq, not_false_eq_true, and_self, if_true]
        simp only [Bool.true_eq_false, false_and, if_false, true_and]
        by_cases hr : decimalValue t > 2 ^ 63
        · simp only [hr, if_true, rangeError, Prod.mk.injEq, Option.some.injEq]
          constructor
          · intro h; exact absurd h.2 (by simp)
          · rintro ⟨h5, h6, h7⟩; subst h5; omega
        · simp only [hr, if_false, Prod.mk.injEq, Option.some.injEq, and_true]
          constructor
          · intro h; subst h; exact ⟨rfl, by omega, by omega⟩
          · rintro ⟨h5, -⟩; exact h5
      · obtain ⟨h1, h2⟩ := h
        simp only [h1, syntaxError]
        have : ¬ (t ≠ [] ∧ t.all isDigit = true) := by
          rcases h2 with h2 | h2
          · simp [h2]
          · simp [h2]
        rw [if_neg this]
        simp
      · obtain ⟨h1, h2, h3⟩ := h
        simp only [h1, rangeError]
        by_cases hd : t.all isDigit = true
        · have := h3 hd
          simp only [hd, h2, ne_eq, not_false_eq_true, and_self, if_true]
          norm_num
          constructor
          · rintro ⟨-, h⟩; exact absurd h (by simp)
          · rintro ⟨h5, h6, h7⟩; subst h5; omega
        · simp [hd]
    · have hneg : decide (c = '-') = false := by simpa using hm
      simp only [hm, hneg, or_false, if_false]
      by_cases hp : c = '+'
      · subst hp
        simp only [if_true]
        refine (ParseInt_nonneg_core t _ v).trans ?_
        by_cases hc : t ≠ [] ∧ t.all isDigit = true
        · simp [hc]
        · simp only [hc, if_false, false_and]; simp
      · simp only [hp, if_false]
        refine (ParseInt_nonneg_core (c :: t) _ v).trans ?_
        by_cases hc : (c :: t).all isDigit = true
        · simp only [hc, if_true]; simp
        · simp only [hc, if_false, and_false, false_and]; simp

/-- ParseInt returns no error exactly on base-10 signed integers that fit in 64 bits. -/
theorem ParseInt_err_none_iff (s : String) : (ParseInt s).2 = none ↔ isInt64Decimal s := by
  constructor
  · intro h
    exact ⟨(ParseInt s).1, (ParseInt_ok_iff s _).1 (Prod.ext rfl h)⟩
  · rintro ⟨v, h⟩
    rw [(ParseInt_ok_iff s v).2 h]

/-- Every error ParseInt returns names ParseInt and carries the whole input. -/
theorem ParseInt_err_form (s : String) (e : NumError) (h : (ParseInt s).2 = some e) :
    e.Func = "ParseInt" ∧ e.Num = s := by
  obtain ⟨cs⟩ := s
  cases cs with
  | nil =>
    simp only [ParseInt, syntaxError, if_true, Option.some.injEq] at h
    subst h; exact ⟨rfl, rfl⟩
  | cons c t =>
    rw [ParseInt_unfold] at h
    simp only at h
    split at h
    · simp only [Option.some.injEq] at h
      subst h; exact ⟨rfl, rfl⟩
    · split_ifs at h <;> simp_all [rangeError] <;> (subst h; exact ⟨rfl, rfl⟩)

/-! ## The handlers over any collection -/

theorem GetUsers_of_err {σ : Type} (collection : Collection σ) (sizeParam : String) (db : σ)
    (err : NumError) (h : (ParseInt sizeParam).2 = some err) :
    GetUsers collection sizeParam db =
      ⟨[⟨StatusBadRequest, .errorText (.numError err)⟩], [], db⟩ := by
  simp only [GetUsers, h]

theorem GetUsers_of_ok {σ : Type} (collection : Collection σ) (sizeParam : String) (db : σ)
    (h : (ParseInt sizeParam).2 = none) :
    GetUsers collection sizeParam db =
      (match collection.Find [] { Limit := some (ParseInt sizeParam).1 } db with
      | (.error err, db1) =>
        ⟨[⟨StatusInternalServerError, .H_ERROR err⟩],
          [.Find [] { Limit := some (ParseInt sizeParam).1 }], db1⟩
      | (.ok searchResult, db1) =>
        match searchResult.All with
        | .error err =>
          ⟨[⟨StatusInternalServerError, .H_ERROR err⟩],
            [.Find [] { Limit := some (ParseInt sizeParam).1 }, .CursorAll, .CursorClose], db1⟩
        | .ok decoded =>
          ⟨[⟨StatusOK, usersPayload decoded⟩],
            [.Find [] { Limit := some (ParseInt sizeParam).1 }, .CursorAll, .CursorClose], db1⟩) := by
  simp only [GetUsers, h]

/-- After a successful parse GetUsers calls Find first, with the parsed value as
the limit, and answers 200 or 500. -/
theorem GetUsers_ok_shape {σ : Type} (collection : Collection σ) (sizeParam : String) (db : σ)
    (h : (ParseInt sizeParam).2 = none) :
    (GetUsers collection sizeParam db).calls.head? =
        some (.Find [] { Limit := some (ParseInt sizeParam).1 }) ∧
    ∃ r, (GetUsers collection sizeParam db).written = [r] ∧ (r.code = 200 ∨ r.code = 500) := by
  rw [GetUsers_of_ok collection sizeParam db h]
  rcases hf : collection.Find [] { Limit := some (ParseInt sizeParam).1 } db with ⟨res, db1⟩
  cases res with
  | error err => exact ⟨rfl, _, rfl, Or.inr rfl⟩
  | ok cur =>
    rcases ha : cur.All with err | us
    · simp only [ha]; exact ⟨rfl, _, rfl, Or.inr rfl⟩
    · simp only [ha]; exact ⟨rfl, _, rfl, Or.inl rfl⟩

/-- C1. For every `size` path value that is not numeric (not an optionally signed
string of decimal digits), GetUsers responds HTTP 400 with the text of the error
ParseInt returned for that value as body, and makes no store call: the call list
is empty, so `collection.Find` is not invoked, and the store state is untouched. -/
theorem C1_GetUsers_non_numeric {σ : Type} (collection : Collection σ) (sizeParam : String)
    (db : σ) (h : signedDecimal sizeParam = none) :
    ∃ err, (ParseInt sizeParam).2 = some err ∧ err.Func = "ParseInt" ∧ err.Num = sizeParam ∧
      (GetUsers collection sizeParam db).written = [⟨400, .errorText (.numError err)⟩] ∧
      (GetUsers collection sizeParam db).calls = [] ∧
      (GetUsers collection sizeParam db).db = db := by
  cases he : (ParseInt sizeParam).2 with
  | none =>
    obtain ⟨v, hv, -⟩ := (ParseInt_err_none_iff sizeParam).1 he
    rw [h] at hv
    exact absurd hv (by simp)
  | some err =>
    obtain ⟨h1, h2⟩ := ParseInt_err_form sizeParam err he
    rw [GetUsers_of_err collection sizeParam db err he]
    exact ⟨err, rfl, h1, h2, rfl, rfl, rfl⟩

/-- DeleteUser makes one store call, findOneAndDelete with filter `{_uid: uid}`,
and hands `c.JSON` a decoded document with 200, `mongo.ErrNoDocuments` with 304 and
any other error with 500, the errors as `{"ERROR": message}`. -/
theorem DeleteUser_outcomes {σ : Type} (collection : Collection σ) (userUid : String)
    (db : σ) :
    (DeleteUser collection userUid db).calls =
        [.FindOneAndDelete [("_uid", .string userUid)]] ∧
    (DeleteUser collection userUid db).db =
        (collection.FindOneAndDelete [("_uid", .string userUid)] db).2 ∧
    (∀ u, (collection.FindOneAndDelete [("_uid", .string userUid)] db).1.Decode = .ok u →
      (DeleteUser collection userUid db).written = [⟨200, .user u⟩]) ∧
    ((collection.FindOneAndDelete [("_uid", .string userUid)] db).1.Decode =
        .error .ErrNoDocuments →
      (DeleteUser collection userUid db).written = [⟨304, .H_ERROR .ErrNoDocuments⟩]) ∧
    (∀ err, (collection.FindOneAndDelete [("_uid", .string userUid)] db).1.Decode = .error err →
      err ≠ .ErrNoDocuments →
      (DeleteUser collection userUid db).written = [⟨500, .H_ERROR err⟩]) := by
  refine ⟨?_, ?_, ?_, ?_, ?_⟩
  · simp only [DeleteUser]; split
    · split_ifs <;> rfl
    · rfl
  · simp only [DeleteUser]; split
    · split_ifs <;> rfl
    · rfl
  · intro u hu; simp only [DeleteUser, hu]; rfl
  · intro he; simp only [DeleteUser, he, if_true]; rfl
  · intro err he hne; simp only [DeleteUser, he, hne, if_false]; rfl

/-- C3, what the code does. For every uid and every outcome of the store's
findOneAndDelete with filter `{_uid: uid}`: a decoded document is sent as HTTP 200
with the deleted User as body, and an error other than `mongo.ErrNoDocuments` as
HTTP 500 with body `{"ERROR": message}`. On `mongo.ErrNoDocuments` the handler
calls `c.JSON` with 304 and `{"ERROR": message}`, and what is sent is the status
304 with no body: the message does not reach the client. So it is for DELETE of
"xyz" on five documents without `_uid`. -/
theorem C3_DeleteUser_not_found_without_body {σ : Type} (collection : Collection σ)
    (userUid : String) (db : σ) :
    (∀ u, (collection.FindOneAndDelete [("_uid", .string userUid)] db).1.Decode = .ok u →
      (DeleteUser collection userUid db).written.map Render = [⟨200, some (.user u)⟩]) ∧
    ((collection.FindOneAndDelete [("_uid", .string userUid)] db).1.Decode =
        .error .ErrNoDocuments →
      (DeleteUser collection userUid db).written = [⟨304, .H_ERROR .ErrNoDocuments⟩] ∧
      (DeleteUser collection userUid db).written.map Render = [⟨304, none⟩]) ∧
    (∀ err, (collection.FindOneAndDelete [("_uid", .string userUid)] db).1.Decode = .error err →
      err ≠ .ErrNoDocuments →
      (DeleteUser collection userUid db).written.map Render = [⟨500, some (.H_ERROR err)⟩]) ∧
    (DeleteUser mongo "xyz" fiveDocs).written = [⟨304, .H_ERROR .ErrNoDocuments⟩] ∧
    (DeleteUser mongo "xyz" fiveDocs).written.map Render = [⟨304, none⟩] := by
  obtain ⟨-, -, h200, h304, h500⟩ := DeleteUser_outcomes collection userUid db
  refine ⟨?_, ?_, ?_, by decide, by decide⟩
  · intro u hu
    rw [h200 u hu]
    rfl
  · intro he
    rw [h304 he]
    exact ⟨rfl, rfl⟩
  · intro err he hne
    rw [h500 err he hne]
    rfl

/-- C8. For every request and every behaviour of the store, each handler writes
exactly one response, with a status the interface table lists for its endpoint:
GetUsers 200, 400 or 500; InsertUser 200, 400 or 500; DeleteUser 200, 304 or 500;
UpdateUser 200, 400, 304 or 500. -/
theorem C8_one_response_listed_status {σ : Type} (collection : Collection σ) (db : σ) :
    (∀ sizeParam, ∃ r, (GetUsers collection sizeParam db).written = [r] ∧
      r.code ∈ [200, 400, 500]) ∧
    (∀ body, ∃ r, (InsertUser collection body db).written = [r] ∧
      r.code ∈ [200, 400, 500]) ∧
    (∀ uid, ∃ r, (DeleteUser collection uid db).written = [r] ∧
      r.code ∈ [200, 304, 500]) ∧
    (∀ uid body, ∃ r, (UpdateUser collection uid body db).written = [r] ∧
      r.code ∈ [200, 400, 304, 500]) := by
  refine ⟨?_, ?_, ?_, ?_⟩
  · intro sizeParam
    cases he : (ParseInt sizeParam).2 with
    | some err =>
      rw [GetUsers_of_err collection sizeParam db err he]
      exact ⟨_, rfl, by simp [StatusBadRequest]⟩
    | none =>
      obtain ⟨-, r, hr, hc⟩ := GetUsers_ok_shape collection sizeParam db he
      refine ⟨r, hr, ?_⟩
      rcases hc with hc | hc <;> simp [hc]
  · intro body
    cases body with
    | error err => exact ⟨_, rfl, by simp [StatusBadRequest]⟩
    | ok user =>
      simp only [InsertUser]
      rcases collection.InsertOne user db with ⟨res, db1⟩
      cases res with
      | error err => exact ⟨_, rfl, by simp [StatusInternalServerError]⟩
      | ok result => exact ⟨_, rfl, by simp [StatusOK]⟩
  · intro uid
    simp only [DeleteUser]
    split
    · split_ifs
      · exact ⟨_, rfl, by simp [StatusNotModified]⟩
      · exact ⟨_, rfl, by simp [StatusInternalServerError]⟩
    · exact ⟨_, rfl, by simp [StatusOK]⟩
  · intro uid body
    cases body with
    | error err => exact ⟨_, rfl, by simp [StatusBadRequest]⟩
    | ok user =>
      simp only [UpdateUser, bsonMarshal, bsonUnmarshal]
      split
      · split_ifs
        · exact ⟨_, rfl, by simp [StatusNotModified]⟩
        · exact ⟨_, rfl, by simp [StatusInternalServerError]⟩
      · exact ⟨_, rfl, by simp [StatusOK]⟩

/-- C10. GetUsers responds HTTP 400 if and only if the `size` path value is not a
base-10 signed integer that fits in 64 bits. A value that is one is handed
unchanged to the store as the limit of the first call, Find with the empty filter,
whatever its sign: there is no positivity check. The digit string
"9223372036854775808" is numeric and rejected with 400; "0" and "-5" reach Find
as limits 0 and -5. -/
theorem C10_GetUsers_400_iff {σ : Type} (collection : Collection σ) (sizeParam : String)
    (db : σ) :
    ((GetUsers collection sizeParam db).written.map Response.code = [400] ↔
      ¬ isInt64Decimal sizeParam) ∧
    (∀ v, signedDecimal sizeParam = some v → fitsInt64 v →
      (GetUsers collection sizeParam db).calls.head? = some (.Find [] { Limit := some v })) ∧
    (signedDecimal "9223372036854775808" = some 9223372036854775808 ∧
      (GetUsers collection "9223372036854775808" db).written.map Response.code = [400] ∧
      (GetUsers collection "9223372036854775808" db).calls = []) ∧
    (GetUsers collection "0" db).calls.head? = some (.Find [] { Limit := some 0 }) ∧
    (GetUsers collection "-5" db).calls.head? = some (.Find [] { Limit := some (-5) }) := by
  have key : ∀ (s : String) (v : Int), ParseInt s = (v, none) →
      (GetUsers collection s db).calls.head? = some (.Find [] { Limit := some v }) := by
    intro s v hv
    have h2 : (ParseInt s).2 = none := by rw [hv]
    have h1 : (ParseInt s).1 = v := by rw [hv]
    have := (GetUsers_ok_shape collection s db h2).1
    rw [h1] at this
    exact this
  refine ⟨?_, ?_, ⟨by decide, ?_, ?_⟩, key "0" 0 (by decide), key "-5" (-5) (by decide)⟩
  · rw [← ParseInt_err_none_iff]
    cases he : (ParseInt sizeParam).2 with
    | some err =>
      rw [GetUsers_of_err collection sizeParam db err he]
      simp [StatusBadRequest]
    | none =>
      obtain ⟨-, r, hr, hc⟩ := GetUsers_ok_shape collection sizeParam db he
      rw [hr]
      rcases hc with hc | hc <;> simp [hc]
  · intro v hv hf
    exact key sizeParam v ((ParseInt_ok_iff sizeParam v).2 ⟨hv, hf⟩)
  · rw [GetUsers_of_err collection "9223372036854775808" db
      (rangeError "ParseInt" "9223372036854775808") (by decide)]
    rfl
  · rw [GetUsers_of_err collection "9223372036854775808" db
      (rangeError "ParseInt" "9223372036854775808") (by decide)]

/-! ## The handlers on the document store -/

theorem matches_nil (d : Document) : Document.matches [] d = true := by
  simp [Document.matches]

theorem matches_uid (uid : String) (d : Document) :
    Document.matches [("_uid", .string uid)] d = decide (d._uid = some (.string uid)) := by
  simp [Document.matches, Document.field]

theorem filter_matches_nil (docs : List Document) :
    docs.filter (Document.matches []) = docs := by
  simp [matches_nil]

theorem find_uid_none (uid : String) (docs : List Document)
    (h : ∀ d ∈ docs, d._uid ≠ some (.string uid)) :
    docs.find? (Document.matches [("_uid", .string uid)]) = none := by
  rw [List.find?_eq_none]
  intro d hd
  simp [matches_uid, h d hd]

/-- The store's find leaves the collection as it is. -/
theorem mongoFind_db (filter : BsonD) (opts : FindOptions) (db : Store) :
    (mongoFind filter opts db).2 = db := by
  simp only [mongoFind]
  split
  · rfl
  · split_ifs <;> rfl

/-- The store's find with the empty filter and a limit that is not negative. -/
theorem mongoFind_nonneg (size : Int) (db : Store) (h0 : 0 ≤ size) :
    mongoFind [] { Limit := some size } db =
      (.ok ⟨.ok ((if size = 0 then db.docs else db.docs.take size.toNat).map
        Document.decode)⟩, db) := by
  have h1 : ¬ size < 0 := by omega
  simp [mongoFind, filter_matches_nil, h1, serverFind]

/-- GetUsers on the document store, after a successful parse of a size that is
not negative. -/
theorem GetUsers_mongo (sizeParam : String) (size : Int) (db : Store)
    (hp : ParseInt sizeParam = (size, none)) (h0 : 0 ≤ size) :
    GetUsers mongo sizeParam db =
      ⟨[⟨StatusOK, usersPayload ((if size = 0 then db.docs
          else db.docs.take size.toNat).map Document.decode)⟩],
        [.Find [] { Limit := some size }, .CursorAll, .CursorClose], db⟩ := by
  have h2 : (ParseInt sizeParam).2 = none := by rw [hp]
  have h1 : (ParseInt sizeParam).1 = size := by rw [hp]
  rw [GetUsers_of_ok mongo sizeParam db h2, h1]
  have hm : mongo.Find [] { Limit := some size } db = mongoFind [] { Limit := some size } db :=
    rfl
  rw [hm, mongoFind_nonneg size db h0]

/-- UpdateUser on the document store when no document matches the uid. -/
theorem UpdateUser_mongo_no_match (uid : String) (user : User) (db : Store)
    (h : ∀ d ∈ db.docs, d._uid ≠ some (.string uid)) :
    UpdateUser mongo uid (.ok user) db =
      ⟨[⟨StatusNotModified, .H_ERROR .ErrNoDocuments⟩],
        [.FindOneAndUpdate [("_uid", .string uid)] [("$set", user)]
          { ReturnDocument := some .After }], db⟩ := by
  simp [UpdateUser, bsonMarshal, bsonUnmarshal, mongo, mongoFindOneAndUpdate,
    find_uid_none uid db.docs h]

/-- DeleteUser on the document store when no document matches the uid. -/
theorem DeleteUser_mongo_no_match (uid : String) (db : Store)
    (h : ∀ d ∈ db.docs, d._uid ≠ some (.string uid)) :
    DeleteUser mongo uid db =
      ⟨[⟨StatusNotModified, .H_ERROR .ErrNoDocuments⟩],
        [.FindOneAndDelete [("_uid", .string uid)]], db⟩ := by
  simp [DeleteUser, mongo, mongoFindOneAndDelete, find_uid_none uid db.docs h]

/-- InsertUser on the document store with a body that binds. -/
theorem InsertUser_mongo (user : User) (db : Store) :
    InsertUser mongo (.ok user) db =
      ⟨[⟨StatusOK, .insertResult ⟨db.nextID⟩⟩], [.InsertOne user],
        ⟨db.docs ++ [⟨db.nextID, none, user.Age, user.Name, user.Surname, user.Registered⟩],
          db.nextID + 1⟩⟩ := by
  simp [InsertUser, mongo, mongoInsertOne]

/-- C2, as amended. For every valid size (ParseInt accepts the path value) with
size >= 0 and every collection state, GetUsers hands size to Find as the limit and
responds HTTP 200. On a collection that is not empty the body is an array of User
documents: for size > 0 the first size documents in natural order, so at most size
of them, and for size = 0, which the store reads as no limit, every document of
the collection. On an empty collection the slice handed to `c.JSON` is nil, and
the body is `null`, not an empty array. -/
theorem C2_GetUsers_limit (sizeParam : String) (size : Int) (db : Store)
    (hp : ParseInt sizeParam = (size, none)) (h0 : 0 ≤ size) :
    (GetUsers mongo sizeParam db).calls =
        [.Find [] { Limit := some size }, .CursorAll, .CursorClose] ∧
    (GetUsers mongo sizeParam db).written.map Response.code = [200] ∧
    (db.docs ≠ [] → 0 < size →
      (GetUsers mongo sizeParam db).written =
          [⟨200, .users ((db.docs.take size.toNat).map Document.decode)⟩] ∧
        (((db.docs.take size.toNat).map Document.decode).length : Int) ≤ size ∧
        (db.docs.take size.toNat).map Document.decode ≠ []) ∧
    (db.docs ≠ [] → size = 0 →
      (GetUsers mongo sizeParam db).written = [⟨200, .users (db.docs.map Document.decode)⟩]) ∧
    (db.docs = [] →
      (GetUsers mongo sizeParam db).written = [⟨200, .nilUsers⟩] ∧
      (GetUsers mongo sizeParam db).written.map Render = [⟨200, some .nilUsers⟩]) := by
  rw [GetUsers_mongo sizeParam size db hp h0]
  refine ⟨rfl, rfl, ?_, ?_, ?_⟩
  · intro hne hs
    have hz : size ≠ 0 := by omega
    have hpos : 0 < size.toNat := by omega
    have hnil : (db.docs.take size.toNat).map Document.decode ≠ [] := by
      cases hd : db.docs with
      | nil => exact absurd hd hne
      | cons d ds =>
        obtain ⟨k, hk⟩ : ∃ k, size.toNat = k + 1 := ⟨size.toNat - 1, by omega⟩
        simp [hk]
    refine ⟨?_, ?_, hnil⟩
    · simp only [hz, if_false, usersPayload, hnil, StatusOK]
    · simp only [List.length_map, List.length_take]
      omega
  · intro hne hs
    have hnil : db.docs.map Document.decode ≠ [] := by
      simpa using hne
    simp only [hs, if_true, usersPayload, hnil, if_false, StatusOK]
  · intro he
    have hnil : (if size = 0 then db.docs else db.docs.take size.toNat).map Document.decode =
        [] := by
      rw [he]; split_ifs <;> simp
    rw [hnil]
    exact ⟨rfl, rfl⟩

/-- C2 fails as stated in two places. Against a collection holding one document,
GET with size "0" is valid, hands limit 0 to Find, and is answered with HTTP 200
and an array of one User, which is more than size. Against the empty collection,
GET with size "2" is answered with HTTP 200 and the nil slice, written as `null`,
which is not the empty array. -/
theorem C2_counterexample_size_zero :
    ParseInt "0" = (0, none) ∧
    (GetUsers mongo "0" oneDoc).calls =
      [.Find [] { Limit := some 0 }, .CursorAll, .CursorClose] ∧
    (GetUsers mongo "0" oneDoc).written = [⟨200, .users [ann]⟩] ∧
    ¬ ([ann].length ≤ 0) ∧
    ParseInt "2" = (2, none) ∧
    (GetUsers mongo "2" ⟨[], 0⟩).written = [⟨200, .nilUsers⟩] ∧
    (GetUsers mongo "2" ⟨[], 0⟩).written ≠ [⟨200, .users []⟩] := by
  refine ⟨by decide, ?_, ?_, by decide, by decide, ?_, ?_⟩
  · rw [GetUsers_mongo "0" 0 _ (by decide) (by decide)]
  · rw [GetUsers_mongo "0" 0 _ (by decide) (by decide)]
    rfl
  · rw [GetUsers_mongo "2" 2 _ (by decide) (by decide)]
    rfl
  · rw [GetUsers_mongo "2" 2 _ (by decide) (by decide)]
    decide

/-- The scenario of the specification: size "2" against five documents gives
HTTP 200 and the first two users. -/
theorem C2_GetUsers_limit_witness :
    ParseInt "2" = (2, none) ∧ (0 : Int) ≤ 2 ∧
    (GetUsers mongo "2" fiveDocs).written =
      [⟨200, .users [⟨21, "Ada", "Ay", 0⟩, ⟨22, "Bo", "Bee", 0⟩]⟩] :=
  ⟨by decide, by decide,
    ((C2_GetUsers_limit "2" 2 fiveDocs (by decide) (by decide)).2.2.1
      (by decide) (by decide)).1⟩

/-- C4. For every uid, every User body that binds and every collection state in
which no document has `_uid` equal to uid, UpdateUser responds HTTP 304 and leaves
the collection as it was: no document is created and none is modified. The one
store call it makes asks for no upsert. -/
theorem C4_UpdateUser_no_upsert (uid : String) (user : User) (db : Store)
    (h : ∀ d ∈ db.docs, d._uid ≠ some (.string uid)) :
    (UpdateUser mongo uid (.ok user) db).written = [⟨304, .H_ERROR .ErrNoDocuments⟩] ∧
    (UpdateUser mongo uid (.ok user) db).db = db ∧
    (UpdateUser mongo uid (.ok user) db).calls =
      [.FindOneAndUpdate [("_uid", .string uid)] [("$set", user)]
        { ReturnDocument := some .After, Upsert := none }] := by
  rw [UpdateUser_mongo_no_match uid user db h]
  exact ⟨rfl, rfl, rfl⟩

/-- The witness of C4: the scenario of the specification, an update of "xyz" on
a collection where no document has `_uid`. -/
theorem C4_UpdateUser_no_upsert_witness :
    (∀ d ∈ fiveDocs.docs, d._uid ≠ some (.string "xyz")) ∧
    (UpdateUser mongo "xyz" (.ok ann) fiveDocs).written = [⟨304, .H_ERROR .ErrNoDocuments⟩] ∧
    (UpdateUser mongo "xyz" (.ok ann) fiveDocs).db = fiveDocs :=
  ⟨by decide, (C4_UpdateUser_no_upsert "xyz" ann fiveDocs (by decide)).1,
    (C4_UpdateUser_no_upsert "xyz" ann fiveDocs (by decide)).2.1⟩

/-- The witness of C1: the path value "abc". -/
theorem C1_GetUsers_non_numeric_witness :
    signedDecimal "abc" = none ∧
    ∃ err, (ParseInt "abc").2 = some err ∧ err.Func = "ParseInt" ∧ err.Num = "abc" ∧
      (GetUsers mongo "abc" fiveDocs).written = [⟨400, .errorText (.numError err)⟩] ∧
      (GetUsers mongo "abc" fiveDocs).calls = [] ∧
      (GetUsers mongo "abc" fiveDocs).db = fiveDocs :=
  ⟨by decide, C1_GetUsers_non_numeric mongo "abc" fiveDocs (by decide)⟩

theorem noUid_of_ne (db : Store) (h : noUid db) (uid : String) :
    ∀ d ∈ db.docs, d._uid ≠ some (.string uid) := by
  intro d hd
  rw [h d hd]
  simp

/-- GetUsers leaves the document store as it found it, whatever the size. -/
theorem GetUsers_mongo_db (sizeParam : String) (db : Store) :
    (GetUsers mongo sizeParam db).db = db := by
  cases he : (ParseInt sizeParam).2 with
  | some err => rw [GetUsers_of_err mongo sizeParam db err he]
  | none =>
    rw [GetUsers_of_ok mongo sizeParam db he]
    have hm : mongo.Find [] { Limit := some (ParseInt sizeParam).1 } db =
        mongoFind [] { Limit := some (ParseInt sizeParam).1 } db := rfl
    have hdb := mongoFind_db [] { Limit := some (ParseInt sizeParam).1 } db
    rw [hm]
    rcases hf : mongoFind [] { Limit := some (ParseInt sizeParam).1 } db with ⟨res, db1⟩
    rw [hf] at hdb
    simp only at hdb
    subst hdb
    cases res with
    | error err => rfl
    | ok cur =>
      rcases ha : cur.All with err | us
      · simp only [ha]
      · simp only [ha]

/-- Serving one request keeps the collection free of `_uid`. -/
theorem serve_noUid (req : Request) (db : Store) (h : noUid db) :
    noUid (serve mongo req db).db := by
  cases req with
  | List size => simp only [serve, GetUsers_mongo_db]; exact h
  | Insert body =>
    cases body with
    | error err => exact h
    | ok user =>
      simp only [serve, InsertUser_mongo]
      intro d hd
      simp only [List.mem_append, List.mem_singleton] at hd
      rcases hd with hd | hd
      · exact h d hd
      · rw [hd]
  | Delete uid =>
    simp only [serve, DeleteUser_mongo_no_match uid db (noUid_of_ne db h uid)]
    exact h
  | Update uid body =>
    cases body with
    | error err => exact h
    | ok user =>
      simp only [serve, UpdateUser_mongo_no_match uid user db (noUid_of_ne db h uid)]
      exact h

/-- C5, as amended. The service never populates `_uid`: starting from a collection
in which no document has a field `_uid`, after any sequence of Insert, List,
Delete and Update requests served by the store still no document has one; every
request of the sequence is answered, every Delete responds HTTP 304, and every
Update whose body binds to a User responds HTTP 304, for every uid. An Update
whose body does not bind responds HTTP 400 with the binding error. -/
theorem C5_uid_never_populated (reqs : List Request) (db : Store) (h : noUid db) :
    noUid (run mongo reqs db).2 ∧
    (run mongo reqs db).1.map Prod.fst = reqs ∧
    ∀ p ∈ (run mongo reqs db).1,
      (∀ uid, p.1 = .Delete uid → p.2 = [⟨304, .H_ERROR .ErrNoDocuments⟩]) ∧
      (∀ uid user, p.1 = .Update uid (.ok user) → p.2 = [⟨304, .H_ERROR .ErrNoDocuments⟩]) ∧
      (∀ uid err, p.1 = .Update uid (.error err) → p.2 = [⟨400, .H_ERROR err⟩]) := by
  induction reqs generalizing db with
  | nil => exact ⟨h, rfl, by simp [run]⟩
  | cons req reqs ih =>
    obtain ⟨h1, h2, h3⟩ := ih (serve mongo req db).db (serve_noUid req db h)
    refine ⟨h1, by simp only [run, List.map_cons, h2], ?_⟩
    intro p hp
    simp only [run, List.mem_cons] at hp
    rcases hp with hp | hp
    · subst hp
      refine ⟨?_, ?_, ?_⟩
      · intro uid hu
        simp only at hu
        subst hu
        simp only [serve, DeleteUser_mongo_no_match uid db (noUid_of_ne db h uid)]
        rfl
      · intro uid user hu
        simp only at hu
        subst hu
        simp only [serve, UpdateUser_mongo_no_match uid user db (noUid_of_ne db h uid)]
        rfl
      · intro uid err hu
        simp only at hu
        subst hu
        rfl
    · exact h3 p hp

/-- C5 fails as stated for an Update whose body does not bind: on the empty
collection, which has no `_uid` anywhere, the request is answered with HTTP 400,
not 304. -/
theorem C5_counterexample_update_unbound_body :
    noUid ⟨[], 0⟩ ∧
    (run mongo [.Update "xyz" (.error (.other "EOF"))] ⟨[], 0⟩).1 =
      [(.Update "xyz" (.error (.other "EOF")), [⟨400, .H_ERROR (.other "EOF")⟩])] ∧
    (400 : Nat) ≠ 304 := by
  refine ⟨?_, rfl, by decide⟩
  intro d hd
  cases hd

/-- The witness of C5: an insert, a list, a delete and two updates on five documents. -/
theorem C5_uid_never_populated_witness :
    noUid fiveDocs ∧
    (run mongo [.Insert (.ok ann), .List "9", .Delete "xyz", .Update "xyz" (.ok ann),
      .Update "0" (.error (.other "EOF"))] fiveDocs).1.map Prod.fst =
      [.Insert (.ok ann), .List "9", .Delete "xyz", .Update "xyz" (.ok ann),
        .Update "0" (.error (.other "EOF"))] :=
  ⟨by decide, (C5_uid_never_populated _ fiveDocs (by decide)).2.1⟩

/-- UpdateUser on the document store when the first document matching the uid is `d0`. -/
theorem UpdateUser_mongo_match (uid : String) (user : User) (db : Store) (d0 : Document)
    (h : db.docs.find? (Document.matches [("_uid", .string uid)]) = some d0) :
    UpdateUser mongo uid (.ok user) db =
      ⟨[⟨StatusOK, .user user⟩],
        [.FindOneAndUpdate [("_uid", .string uid)] [("$set", user)]
          { ReturnDocument := some .After }],
        ⟨replaceFirst (Document.matches [("_uid", .string uid)]) (setUser d0 user) db.docs,
          db.nextID⟩⟩ := by
  simp [UpdateUser, bsonMarshal, bsonUnmarshal, mongo, mongoFindOneAndUpdate, h, applyUpdate,
    setUser, Document.decode]

/-- Where `replaceFirst` writes: the list splits at the first element satisfying
`p`, and only that element is exchanged. -/
theorem replaceFirst_split (p : Document → Bool) (d1 d0 : Document) (docs : List Document)
    (h : docs.find? p = some d0) :
    ∃ pre post, docs = pre ++ d0 :: post ∧ (∀ d ∈ pre, p d = false) ∧ p d0 = true ∧
      replaceFirst p d1 docs = pre ++ d1 :: post := by
  induction docs with
  | nil => simp at h
  | cons d ds ih =>
    by_cases hp : p d = true
    · have hd : d = d0 := by simpa [List.find?_cons, hp] using h
      subst hd
      exact ⟨[], ds, rfl, by simp, hp, by simp [replaceFirst, hp]⟩
    · have hf : ds.find? p = some d0 := by simpa [List.find?_cons, hp] using h
      obtain ⟨pre, post, h1, h2, h3, h4⟩ := ih hf
      refine ⟨d :: pre, post, by rw [h1]; rfl, ?_, h3, ?_⟩
      · intro x hx
        simp only [List.mem_cons] at hx
        rcases hx with hx | hx
        · rw [hx]; simpa using hp
        · exact h2 x hx
      · simp only [replaceFirst, hp, if_false, h4, List.cons_append]
        rfl

/-- C6. For every uid and every User body that binds, when a document with `_uid`
equal to uid exists, UpdateUser makes one store call, findOneAndUpdate with filter
`{_uid: uid}`, the update `{$set: user}` of the whole User and the post-update
document requested, and responds HTTP 200 with a User equal to the request body in
all four fields. In the store the first document whose `_uid` is uid, and no other,
is written: it keeps `_id` and `_uid` and has age, name, surname and registered
replaced by those of the body; the documents before and after it are as they were. -/
theorem C6_UpdateUser_set (uid : String) (user : User) (db : Store)
    (h : ∃ d ∈ db.docs, d._uid = some (.string uid)) :
    (UpdateUser mongo uid (.ok user) db).calls =
      [.FindOneAndUpdate [("_uid", .string uid)] [("$set", user)]
        { ReturnDocument := some .After, Upsert := none }] ∧
    (UpdateUser mongo uid (.ok user) db).written = [⟨200, .user user⟩] ∧
    ∃ pre d0 post, db.docs = pre ++ d0 :: post ∧
      (∀ d ∈ pre, d._uid ≠ some (.string uid)) ∧ d0._uid = some (.string uid) ∧
      (UpdateUser mongo uid (.ok user) db).db =
        ⟨pre ++ ⟨d0._id, d0._uid, user.Age, user.Name, user.Surname, user.Registered⟩ :: post,
          db.nextID⟩ := by
  cases hf : db.docs.find? (Document.matches [("_uid", .string uid)]) with
  | none =>
    obtain ⟨d, hd, hu⟩ := h
    rw [List.find?_eq_none] at hf
    exact absurd (by simp [matches_uid, hu]) (hf d hd)
  | some d0 =>
    rw [UpdateUser_mongo_match uid user db d0 hf]
    obtain ⟨pre, post, h1, h2, h3, h4⟩ :=
      replaceFirst_split (Document.matches [("_uid", .string uid)]) (setUser d0 user) d0
        db.docs hf
    refine ⟨rfl, rfl, pre, d0, post, h1, ?_, ?_, ?_⟩
    · intro d hd
      have := h2 d hd
      simpa [matches_uid] using this
    · simpa [matches_uid] using h3
    · show (⟨replaceFirst (Document.matches [("_uid", .string uid)]) (setUser d0 user) db.docs,
        db.nextID⟩ : Store) = _
      rw [h4]
      rfl

/-- The witness of C6: an update of "xyz" where the second document has that
`_uid`; the second document is rewritten and the first is as it was. -/
theorem C6_UpdateUser_set_witness :
    (∃ d ∈ withUid.docs, d._uid = some (.string "xyz")) ∧
    (UpdateUser mongo "xyz" (.ok ⟨31, "Zed", "Q", 7⟩) withUid).written =
      [⟨200, .user ⟨31, "Zed", "Q", 7⟩⟩] ∧
    (UpdateUser mongo "xyz" (.ok ⟨31, "Zed", "Q", 7⟩) withUid).db =
      ⟨[⟨0, none, 21, "Ada", "Ay", 0⟩, ⟨1, some (.string "xyz"), 31, "Zed", "Q", 7⟩], 2⟩ :=
  ⟨by decide, (C6_UpdateUser_set "xyz" ⟨31, "Zed", "Q", 7⟩ withUid (by decide)).2.1,
    by decide⟩

/-- C7. Round trip: for every User body that binds and every collection state,
InsertUser responds HTTP 200 and appends one document holding the four values
unchanged; a following GetUsers with a valid size N, N at least the size of the
collection, responds HTTP 200 with an array that holds every document of the
collection and contains a User equal to the one sent in age, name, surname and
registered. -/
theorem C7_insert_then_list (user : User) (db : Store) (sizeParam : String) (N : Int)
    (hp : ParseInt sizeParam = (N, none))
    (hN : ((InsertUser mongo (.ok user) db).db.docs.length : Int) ≤ N) :
    (InsertUser mongo (.ok user) db).written = [⟨200, .insertResult ⟨db.nextID⟩⟩] ∧
    (InsertUser mongo (.ok user) db).db.docs =
      db.docs ++ [⟨db.nextID, none, user.Age, user.Name, user.Surname, user.Registered⟩] ∧
    ∃ us, (GetUsers mongo sizeParam (InsertUser mongo (.ok user) db).db).written =
        [⟨200, .users us⟩] ∧
      user ∈ us ∧ us.length = db.docs.length + 1 := by
  rw [InsertUser_mongo] at hN ⊢
  simp only [List.length_append, List.length_singleton] at hN
  have hne : N ≠ 0 := by omega
  rw [GetUsers_mongo sizeParam N _ hp (by omega)]
  have hlen : (db.docs ++
      [(⟨db.nextID, none, user.Age, user.Name, user.Surname, user.Registered⟩ : Document)]).length
        ≤ N.toNat := by
    simp only [List.length_append, List.length_singleton]; omega
  have hall : (if N = 0 then db.docs ++
        [(⟨db.nextID, none, user.Age, user.Name, user.Surname, user.Registered⟩ : Document)]
      else (db.docs ++
        [(⟨db.nextID, none, user.Age, user.Name, user.Surname, user.Registered⟩ :
          Document)]).take N.toNat).map Document.decode =
      db.docs.map Document.decode ++ [user] := by
    simp only [hne, if_false, List.take_of_length_le hlen, List.map_append, List.map_cons,
      List.map_nil, Document.decode]
  rw [hall]
  have hnil : db.docs.map Document.decode ++ [user] ≠ [] := by simp
  refine ⟨rfl, rfl, db.docs.map Document.decode ++ [user], ?_, by simp, by simp⟩
  simp only [usersPayload, hnil, if_false, StatusOK]

/-- The witness of C7: Ann inserted into five documents, then listed with size "6". -/
theorem C7_insert_then_list_witness :
    ParseInt "6" = (6, none) ∧
    ((InsertUser mongo (.ok ann) fiveDocs).db.docs.length : Int) ≤ 6 ∧
    ∃ us, (GetUsers mongo "6" (InsertUser mongo (.ok ann) fiveDocs).db).written =
        [⟨200, .users us⟩] ∧
      ann ∈ us ∧ us.length = fiveDocs.docs.length + 1 :=
  ⟨by decide, by decide, (C7_insert_then_list ann fiveDocs "6" 6 (by decide) (by decide)).2.2⟩

/-! ## The route table of `main` -/

/-- C9, what the code does. The groups `api` and `users` are created before
`router.Use` adds the CORS middleware, and a group copies its parent's chain when it
is created: the four routes under /api/users are registered with the chain Logger,
Recovery, handler. No route chain contains the CORS middleware; it is only in the
root group's chain and in the chain run when no route matches. -/
theorem C9_route_chains_without_cors :
    main.trees = [
      ⟨"GET", "/api/users/:size", [.Logger, .Recovery, .GetUsers]⟩,
      ⟨"POST", "/api/users/add", [.Logger, .Recovery, .InsertUser]⟩,
      ⟨"DELETE", "/api/users/:uid/delete", [.Logger, .Recovery, .DeleteUser]⟩,
      ⟨"PUT", "/api/users/:uid/update", [.Logger, .Recovery, .UpdateUser]⟩] ∧
    (∀ r ∈ main.trees, ∀ config, HandlerFunc.Cors config ∉ r.Handlers) ∧
    main.RouterGroup.Handlers = [.Logger, .Recovery, .Cors corsConfig] ∧
    main.allNoRoute = [.Logger, .Recovery, .Cors corsConfig] := by
  have ht : main.trees = [
      ⟨"GET", "/api/users/:size", [.Logger, .Recovery, .GetUsers]⟩,
      ⟨"POST", "/api/users/add", [.Logger, .Recovery, .InsertUser]⟩,
      ⟨"DELETE", "/api/users/:uid/delete", [.Logger, .Recovery, .DeleteUser]⟩,
      ⟨"PUT", "/api/users/:uid/update", [.Logger, .Recovery, .UpdateUser]⟩] := by decide
  refine ⟨ht, ?_, by decide, by decide⟩
  intro r hr config
  rw [ht] at hr
  simp only [List.mem_cons, List.mem_singleton, List.not_mem_nil, or_false] at hr
  rcases hr with hr | hr | hr | hr <;> subst hr <;> simp

end UserService
